import Mathlib

/-!
Verification of the polybot Settlement Window Engine against its source.

The Python modules under src (tool/gamma.py, tool/redeem.py, tool/config.py,
main.py) are shallowly embedded below.  JSON payloads coming back from the
listing API are modelled by the inductive type JVal; Python dictionaries by
association lists; Python truthiness, str(), int() and dict.get by explicit
total functions.  Operations that can raise in Python are embedded with
Option / Except: a value of none / .error marks the exception path that the
source either catches (turning it into a record skip) or propagates.

Two pieces of the Python standard library that the source calls are taken as
parameters rather than re-implemented: json.loads (parameter named jl) and
the timezone-aware parts of datetime parsing (parameters named pIso for
datetime.fromisoformat composed with astimezone(UTC), and locParse for the
Europe/Madrid localisation in Config.parse_local_dt, both returning the
denoted UTC instant as an integer, none on a parse failure).  Every theorem
that mentions them is proved for all instantiations of these parameters.
-/

namespace Polybot

/-- JSON-like values as decoded by requests' resp.json(): null, booleans,
integers, strings, arrays, and objects (association lists with string keys,
assumed without duplicate keys, as produced by JSON decoding).  The market
payloads relevant to the claims carry no floating point fields, so numbers
are modelled by Int. -/
inductive JVal where
  | null : JVal
  | bool : Bool → JVal
  | int : Int → JVal
  | str : String → JVal
  | list : List JVal → JVal
  | obj : List (String × JVal) → JVal

/-- A decoded JSON object / Python dict. -/
abbrev Market := List (String × JVal)

/-- Python truthiness of a JSON-decoded value: None, False, 0, "", [] and
\x7b\x7d are falsy, everything else is truthy. -/
def JVal.truthy : JVal → Bool
  | .null => false
  | .bool b => b
  | .int n => n != 0
  | .str s => s ≠ ""
  | .list l => ¬ l.isEmpty
  | .obj l => ¬ l.isEmpty

/-- d.get(k): the value stored under key k, if the key is present. -/
def mget (m : Market) (k : String) : Option JVal :=
  m.lookup k

/-- d.get(k) with Python's default None: absent keys and stored nulls are
indistinguishable, both give None. -/
def pyGet (m : Market) (k : String) : JVal :=
  (mget m k).getD JVal.null

/-- d.get(k, d0): absent keys give the explicit default d0. -/
def pyGetD (m : Market) (k : String) (d0 : JVal) : JVal :=
  (mget m k).getD d0

/-- Python `a or b` on decoded values: a if a is truthy, else b. -/
def pyOr (a b : JVal) : JVal :=
  if a.truthy then a else b

/-- ASCII lower-casing of one character (models str.lower on the ASCII
alphabet, the only case the market data exercises). -/
def asciiLower (c : Char) : Char :=
  if 'A' ≤ c ∧ c ≤ 'Z' then Char.ofNat (c.toNat + 32) else c

/-- Models str.lower for ASCII content. -/
def lowerStr (s : String) : String :=
  String.mk (s.data.map asciiLower)

/-- ASCII whitespace (models the whitespace stripped by str.strip / skipped
by int() on the inputs the source sees). -/
def isWs (c : Char) : Bool :=
  c = ' ' ∨ c = '\t' ∨ c = '\n' ∨ c = '\r'

/-- Models str.strip(): drop whitespace from both ends. -/
def stripStr (s : String) : String :=
  String.mk (((s.data.dropWhile isWs).reverse.dropWhile isWs).reverse)

/-- winner.strip().lower(), the normalisation _pick_winning_index applies to
both sides of the outcome comparison. -/
def normStr (s : String) : String :=
  lowerStr (stripStr s)

/-- s.startswith(p). -/
def strStarts (s p : String) : Bool :=
  p.data.isPrefixOf s.data

/-- s.replace("Z", "+00:00"): every occurrence of the one-character pattern
Z is replaced, exactly as the single call site in gamma.py uses it. -/
def replZchars : List Char → List Char
  | [] => []
  | c :: cs =>
    if c = 'Z' then '+' :: '0' :: '0' :: ':' :: '0' :: '0' :: replZchars cs
    else c :: replZchars cs

/-- String form of the Z-to-offset substitution. -/
def replZ (s : String) : String :=
  String.mk (replZchars s.data)

/-- Decimal digits of a Python int literal body; none when empty or when a
non-digit appears (int() then raises ValueError). -/
def digitsToNat (cs : List Char) : Option Nat :=
  if cs.isEmpty then none
  else cs.foldl
    (fun acc c =>
      acc.bind fun n =>
        if '0' ≤ c ∧ c ≤ '9' then some (n * 10 + (c.toNat - '0'.toNat)) else none)
    (some 0)

/-- Python int(s) on a string: surrounding whitespace, an optional sign and
a nonempty digit run (the decimal forms the token-id and payout data uses);
none models the ValueError path. -/
def pyIntOfString (s : String) : Option Int :=
  match (stripStr s).data with
  | '-' :: rest => (digitsToNat rest).map fun n => -(n : Int)
  | '+' :: rest => (digitsToNat rest).map fun n => (n : Int)
  | cs => (digitsToNat cs).map fun n => (n : Int)

/-- Python int(x) on a decoded JSON value: bools count as 0/1, ints pass
through, strings are parsed, everything else raises (none). -/
def pyInt : JVal → Option Int
  | .bool b => some (if b then 1 else 0)
  | .int n => some n
  | .str s => pyIntOfString s
  | _ => none

/-- Decimal rendering of an Int, as str() produces it. -/
def intStr (n : Int) : String :=
  if n < 0 then "-" ++ Nat.repr n.natAbs else Nat.repr n.natAbs

/-- A single-quote character as a string (used by the repr rendering). -/
def quoteCh : String :=
  String.singleton (Char.ofNat 39)

mutual

/-- Python repr() of a decoded JSON value, as used by str() on containers.
String escaping inside nested containers is not reproduced (no claim depends
on the rendering of a nested container). -/
def pyRepr : JVal → String
  | .null => "None"
  | .bool true => "True"
  | .bool false => "False"
  | .int n => intStr n
  | .str s => quoteCh ++ s ++ quoteCh
  | .list xs => "[" ++ pyReprSeq xs ++ "]"
  | .obj kvs => "\x7b" ++ pyReprObj kvs ++ "\x7d"

/-- Comma-joined reprs of a list's elements. -/
def pyReprSeq : List JVal → String
  | [] => ""
  | [x] => pyRepr x
  | x :: y :: xs => pyRepr x ++ ", " ++ pyReprSeq (y :: xs)

/-- Comma-joined regular renderings of a dict's items. -/
def pyReprObj : List (String × JVal) → String
  | [] => ""
  | [(k, v)] => quoteCh ++ k ++ quoteCh ++ ": " ++ pyRepr v
  | (k, v) :: y :: xs => quoteCh ++ k ++ quoteCh ++ ": " ++ pyRepr v ++ ", " ++ pyReprObj (y :: xs)

end

/-- Python str(x) on a decoded JSON value. -/
def pyStr : JVal → String
  | .str s => s
  | v => pyRepr v

/-! ### tool/redeem.py: field adapters and the Redemption Candidate Resolver

Throughout, jl : String → Option JVal stands for json.loads (none models the
json.JSONDecodeError path that every call site catches). -/

/-- redeem.py _parse_listish: a list maps its elements through str(); a
string is stripped and JSON-decoded, a decoded list maps through str();
everything else (including decode failures and decoded non-lists) returns
the caller's default. -/
def parseListish (jl : String → Option JVal) (v : JVal) (dflt : List String) : List String :=
  match v with
  | .list xs => xs.map pyStr
  | .str s =>
    match jl (stripStr s) with
    | some (.list xs) => xs.map pyStr
    | _ => dflt
  | _ => dflt

/-- redeem.py _parse_int_listish: a list keeps the elements int() accepts
(element-wise, failures skipped); a string is JSON-decoded and, if a list,
converted element-wise where a single int() failure discards the whole
result (the comprehension raises inside the try); everything else gives []. -/
def parseIntListish (jl : String → Option JVal) (v : JVal) : List Int :=
  match v with
  | .list xs => xs.filterMap pyInt
  | .str s =>
    match jl s with
    | some (.list xs) =>
      match xs.mapM pyInt with
      | some l => l
      | none => []
    | _ => []
  | _ => []

/-- Whether a value is Python's True (the `is True` identity tests in
_market_is_resolved). -/
def isTrueV : JVal → Bool
  | .bool true => true
  | _ => false

/-- redeem.py _market_is_resolved: resolved/isResolved is True, or closed is
True together with a truthy winner, winningOutcome or payoutNumerators
field, or a truthy resolution field. -/
def marketIsResolved (m : Market) : Bool :=
  if isTrueV (pyGet m "resolved") ∨ isTrueV (pyGet m "isResolved") then true
  else if isTrueV (pyGet m "closed") ∧
      ((pyGet m "winner").truthy ∨ (pyGet m "winningOutcome").truthy ∨
        (pyGet m "payoutNumerators").truthy) then true
  else (pyGet m "resolution").truthy

/-- The per-key test in _extract_condition_id: a string starting with 0x of
length 66. -/
def condKeyOk : JVal → Option String
  | .str v => if strStarts v "0x" ∧ v.length = 66 then some v else none
  | _ => none

/-- redeem.py _extract_condition_id: the first of conditionId, condition_id,
conditionID holding a 0x-prefixed 66-character string. -/
def extractConditionId (m : Market) : Option String :=
  match condKeyOk (pyGet m "conditionId") with
  | some v => some v
  | none =>
    match condKeyOk (pyGet m "condition_id") with
    | some v => some v
    | none => condKeyOk (pyGet m "conditionID")

/-- The winner value _pick_winning_index starts from: the first truthy of
winner, winningOutcome, resolvedOutcome. -/
def winnerRaw (m : Market) : JVal :=
  pyOr (pyOr (pyGet m "winner") (pyGet m "winningOutcome")) (pyGet m "resolvedOutcome")

/-- Step 1 of _pick_winning_index: when the winner value is a string and the
outcomes list is truthy, the first outcome equal to it after strip().lower()
on both sides. -/
def winnerMatchIdx (m : Market) (outcomes : List String) : Option Nat :=
  match winnerRaw m with
  | .str w =>
    if outcomes.isEmpty then none
    else outcomes.findIdx? fun o => normStr o == normStr w
  | _ => none

/-- The payout numerators _pick_winning_index scans: the first truthy of
payoutNumerators, payout_numerators, through _parse_int_listish. -/
def payoutNums (jl : String → Option JVal) (m : Market) : List Int :=
  parseIntListish jl (pyOr (pyGet m "payoutNumerators") (pyGet m "payout_numerators"))

/-- redeem.py _pick_winning_index: the explicit-winner match, else the first
entry x of the payout numerators with `x and x > 0`, else none. -/
def pickWinningIndex (jl : String → Option JVal) (m : Market) (outcomes : List String) : Option Nat :=
  match winnerMatchIdx m outcomes with
  | some i => some i
  | none => (payoutNums jl m).findIdx? fun x => decide (x ≠ 0) && decide (0 < x)

/-- redeem.py _clob_token_ids: clobTokenIds / clob_token_ids through
_parse_listish; when that is empty and m has a dict under clob, that dict's
tokenIds through _parse_listish. -/
def clobTokenIds (jl : String → Option JVal) (m : Market) : List String :=
  let ids := parseListish jl (pyOr (pyGet m "clobTokenIds") (pyGet m "clob_token_ids")) []
  if ids.isEmpty then
    match mget m "clob" with
    | some (.obj kvs) => parseListish jl (pyGet kvs "tokenIds") []
    | _ => ids
  else ids

/-- The per-key test in _collateral_from_market: a 0x-prefixed 42-character
string. -/
def addrOk : JVal → Option String
  | .str v => if strStarts v "0x" ∧ v.length = 42 then some v else none
  | _ => none

/-- redeem.py _collateral_from_market: the first of collateralAddress,
collateral, collateralToken, collateral_token that looks like an address;
otherwise the fallback at line 173 evaluates cfg.collateral_token_address.
The parameter cfgCollateral models that attribute read: some v when the
config object defines the attribute, none for the AttributeError raised
when it does not — and the repository's actual Config does not define it
(see configAttrNames).  The error is caught nowhere in the resolver, so it
propagates (the .error case). -/
def collateralFromMarket (m : Market) (cfgCollateral : Option String) :
    Except Unit String :=
  match addrOk (pyGet m "collateralAddress") with
  | some v => .ok v
  | none =>
    match addrOk (pyGet m "collateral") with
    | some v => .ok v
    | none =>
      match addrOk (pyGet m "collateralToken") with
      | some v => .ok v
      | none =>
        match addrOk (pyGet m "collateral_token") with
        | some v => .ok v
        | none =>
          match cfgCollateral with
          | some v => .ok v
          | none => .error ()

/-- redeem.py _slug_prefix. -/
def slugPref (seriesSlug : String) : String :=
  if seriesSlug = "btc-up-or-down-5m" then "btc-updown-5m-" else "btc-"

/-- redeem.py RedeemCandidate. -/
structure RedeemCandidate where
  slug : String
  condition_id : String
  collateral : String
  winning_index : Nat
  winning_index_set : Nat
  token_id : String
  token_balance : Int
deriving DecidableEq

/-- The per-market body of _build_candidates.  bal models the ERC-1155
balanceOf call for the fixed owner (none models any exception raised inside
the surrounding try, which the source turns into a skip); the int(token_id)
conversion inside that try is modelled explicitly.  Every degraded record
produces .ok none (a skip); the only uncaught exception in the body is the
AttributeError of the collateral fallback, raised while the candidate's
constructor arguments are evaluated on the emit path (line 292 is outside
the try), which propagates as .error. -/
def processMarket (jl : String → Option JVal) (cfgCollateral : Option String)
    (bal : Int → Option Int) (m : Market) : Except Unit (Option RedeemCandidate) :=
  if marketIsResolved m then
    match extractConditionId m with
    | none => .ok none
    | some cid =>
      match pickWinningIndex jl m (parseListish jl (pyGet m "outcomes") []) with
      | none => .ok none
      | some winIdx =>
        let tokenIds := clobTokenIds jl m
        if h : winIdx < tokenIds.length then
          let tokenId := tokenIds.get ⟨winIdx, h⟩
          match (pyIntOfString tokenId).bind bal with
          | none => .ok none
          | some b =>
            if b ≤ 0 then .ok none
            else
              match collateralFromMarket m cfgCollateral with
              | .error e => .error e
              | .ok collat =>
                .ok (some
                  { slug := pyStr (pyGetD m "slug" (JVal.str "?"))
                    condition_id := cid
                    collateral := collat
                    winning_index := winIdx
                    winning_index_set := 1 <<< winIdx
                    token_id := tokenId
                    token_balance := b })
        else .ok none
  else .ok none

/-- The per-market loop of _build_candidates (lines 258-298): records are
processed in order, a skip contributes nothing, an emitted candidate is
appended, and an uncaught exception from one record aborts the build. -/
def buildLoop (jl : String → Option JVal) (cfgCollateral : Option String)
    (bal : Int → Option Int) : List Market → Except Unit (List RedeemCandidate)
  | [] => .ok []
  | m :: ms =>
    match processMarket jl cfgCollateral bal m with
    | .error e => .error e
    | .ok none => buildLoop jl cfgCollateral bal ms
    | .ok (some c) =>
      match buildLoop jl cfgCollateral bal ms with
      | .error e => .error e
      | .ok rest => .ok (c :: rest)

/-- redeem.py _build_candidates, downstream of the listing: an empty
listing short-circuits to [] (lines 246-248, before any attribute is read);
a nonempty listing first builds the ERC-1155 contract handle from
cfg.conditional_tokens_address (lines 252-254).  The parameter cfgCondTokens
models the evaluation of that expression: some when the config object
defines the attribute (and the address checksums), none for the
AttributeError the repository's actual Config raises there (the attribute
does not exist, see configAttrNames), which aborts the build before any
record is processed.  Only then does the per-record loop run. -/
def buildCandidates (jl : String → Option JVal)
    (cfgCondTokens cfgCollateral : Option String) (bal : Int → Option Int)
    (markets : List Market) : Except Unit (List RedeemCandidate) :=
  if markets.isEmpty then .ok []
  else
    match cfgCondTokens with
    | none => .error ()
    | some _ => buildLoop jl cfgCollateral bal markets

/-- The candidate one record contributes when its processing does not
raise: the emitted candidate, or none for a skip. -/
def emitted (jl : String → Option JVal) (cfgCollateral : Option String)
    (bal : Int → Option Int) (m : Market) : Option RedeemCandidate :=
  match processMarket jl cfgCollateral bal m with
  | .ok r => r
  | .error _ => none

/-! ### tool/gamma.py: the trading-side Paginated Market Lister

The HTTP layer is a parameter api : Nat → Option JVal mapping the requested
offset to the decoded body of that page; none models both a raise_for_status
exception and a body that resp.json() cannot decode (both abort the call).
Instants are integers (UTC); pIso models datetime.fromisoformat composed
with astimezone(pytz.UTC), none being the caught ValueError path. -/

/-- gamma.py _extract_slot_start_iso on a dict: the startTime /
eventStartTime / startDate of the first event when events is a nonempty
list whose head is a truthy dict, else the flat eventStartTime / startTime /
startDate chain.  The result may be null. -/
def slotRawOf (kvs : Market) : JVal :=
  let fb := pyOr (pyOr (pyGet kvs "eventStartTime") (pyGet kvs "startTime")) (pyGet kvs "startDate")
  match pyGet kvs "events" with
  | .list (e0 :: _) =>
    match e0 with
    | .obj kv2 =>
      if (JVal.obj kv2).truthy then
        pyOr (pyOr (pyGet kv2 "startTime") (pyGet kv2 "eventStartTime")) (pyGet kv2 "startDate")
      else fb
    | _ => fb
  | _ => fb

/-- gamma.py _extract_slot_start_iso: on a non-dict the attribute access
m.get raises (the .error case, which no caller catches). -/
def extractSlotStartIso : JVal → Except Unit JVal
  | .obj kvs => .ok (slotRawOf kvs)
  | _ => .error ()

/-- The inline slot-time normalisation of gamma.py lines 66-72: a falsy
value is skipped; on a string, Z is rewritten to +00:00 and the result
parsed as ISO-8601 (parse failure skips); any other truthy value raises
AttributeError at .replace, caught by the bare except, hence also a skip.
none is the skip outcome; the function is total. -/
def normalizeSlot (pIso : String → Option Int) (st : JVal) : Option Int :=
  if st.truthy then
    match st with
    | .str s => pIso (replZ s)
    | _ => none
  else none

/-- The normalized slot instant of a record, when one is obtained. -/
def slotInstant (pIso : String → Option Int) (v : JVal) : Option Int :=
  match extractSlotStartIso v with
  | .ok st => normalizeSlot pIso st
  | .error _ => none

/-- The accept-or-skip decision for one dict record of a page: accepted
exactly when the normalized slot instant t satisfies ws ≤ t < we. -/
def acceptRec (pIso : String → Option Int) (ws we : Int) (kvs : Market) : Option JVal :=
  match normalizeSlot pIso (slotRawOf kvs) with
  | none => none
  | some t => if ws ≤ t ∧ t < we then some (JVal.obj kvs) else none

/-- One record of the per-page loop of gamma.py: a non-dict record raises
(error); a dict record is accepted or skipped by acceptRec. -/
def processRecord (pIso : String → Option Int) (ws we : Int) (m : JVal) :
    Except Unit (Option JVal) :=
  match m with
  | .obj kvs => .ok (acceptRec pIso ws we kvs)
  | _ => .error ()

/-- The whole page loop: the accepted records of a page in order, or the
error of the first record that raises. -/
def pageFilter (pIso : String → Option Int) (ws we : Int) :
    List JVal → Except Unit (List JVal)
  | [] => .ok []
  | m :: ms =>
    match processRecord pIso ws we m with
    | .error e => .error e
    | .ok none => pageFilter pIso ws we ms
    | .ok (some v) =>
      match pageFilter pIso ws we ms with
      | .error e => .error e
      | .ok rest => .ok (v :: rest)

/-- The debug peek of gamma.py lines 55-58, executed on every truthy body
before the list check: markets[0] and markets[-1] are fed to
_extract_slot_start_iso, so a truthy non-list body raises (subscript /
attribute error), as does a page whose first or last element is not a
dict. -/
def peekCheck (v : JVal) : Except Unit Unit :=
  if v.truthy then
    match v with
    | .list (x :: xs) =>
      match extractSlotStartIso x with
      | .error e => .error e
      | .ok _ =>
        match extractSlotStartIso (xs.getLastD x) with
        | .error e => .error e
        | .ok _ => .ok ()
    | _ => .error ()
  else .ok ()

/-- Errors that abort gamma_list_markets_for_series_in_window. -/
inductive GErr where
  | http : GErr
  | py : GErr
deriving DecidableEq

/-- The while-True loop of gamma_list_markets_for_series_in_window, with
explicit fuel (none = fuel exhausted; gammaGoF_total below shows mm + 1 is
always enough).  Faithful details: the page size is min 100 mm; a falsy
non-list or empty body breaks, returning the accumulator, which the loop
re-initialises to [] for every processed page (so only the final processed
page's matches survive); after a processed page the loop stops once
offset + limit ≥ mm. -/
def gammaGoF (api : Nat → Option JVal) (pIso : String → Option Int)
    (ws we : Int) (mm : Nat) :
    Nat → Nat → List JVal → Option (Except GErr (List JVal))
  | 0, _, _ => none
  | fuel + 1, offset, out =>
    match api offset with
    | none => some (.error GErr.http)
    | some body =>
      match peekCheck body with
      | .error _ => some (.error GErr.py)
      | .ok _ =>
        match body with
        | .list (m :: ms) =>
          match pageFilter pIso ws we (m :: ms) with
          | .error _ => some (.error GErr.py)
          | .ok newOut =>
            if mm ≤ offset + min 100 mm then some (.ok newOut)
            else gammaGoF api pIso ws we mm fuel (offset + min 100 mm) newOut
        | _ => some (.ok out)

/-- gamma.py gamma_list_markets_for_series_in_window, over a window already
translated to UTC instants [ws, we).  Fuel mm + 1 is sufficient for every
api (gammaGoF_total). -/
def gammaList (api : Nat → Option JVal) (pIso : String → Option Int)
    (ws we : Int) (mm : Nat) : Option (Except GErr (List JVal)) :=
  gammaGoF api pIso ws we mm (mm + 1) 0 []

/-! ### tool/redeem.py: _gamma_markets_between, the redemption-side lister -/

/-- Errors that abort the redemption-side discovery: http for a transport
or JSON-decode failure, runtime for the explicit RuntimeError on a non-list
body, and py for Python attribute and subscript errors (raised by the page
peek or record loop of _gamma_markets_between, and by the Config attribute
reads of _build_candidates). -/
inductive RErr where
  | http : RErr
  | runtime : RErr
  | py : RErr
deriving DecidableEq

/-- The debug peek of redeem.py lines 225-228: on a nonempty page,
page[0].get and page[-1].get require dict elements. -/
def redeemPeek : List JVal → Except Unit Unit
  | [] => .ok ()
  | x :: xs =>
    match x, xs.getLastD x with
    | .obj _, .obj _ => .ok ()
    | _, _ => .error ()

/-- The per-page slug filter of redeem.py lines 232-235: every record must
be a dict (str(m.get(..)) raises otherwise); records whose slug starts with
the prefix are kept, as dicts, in order. -/
def redeemPagePick (pref : String) : List JVal → Except Unit (List Market)
  | [] => .ok []
  | m :: ms =>
    match m with
    | .obj kvs =>
      match redeemPagePick pref ms with
      | .error e => .error e
      | .ok rest =>
        .ok (if strStarts (pyStr (pyGetD kvs "slug" (JVal.str ""))) pref
          then kvs :: rest else rest)
    | _ => .error ()

/-- The while-True loop of redeem.py _gamma_markets_between with explicit
fuel.  Faithful details: limit is min maxMarkets 200 (passed here already
computed); a non-list body raises RuntimeError; matches accumulate across
pages with no cumulative cap; the loop breaks exactly when a page has fewer
than limit records. -/
def redeemGoF (api : Nat → Option JVal) (pref : String) (limit : Nat) :
    Nat → Nat → List Market → Option (Except RErr (List Market))
  | 0, _, _ => none
  | fuel + 1, offset, out =>
    match api offset with
    | none => some (.error RErr.http)
    | some body =>
      match body with
      | .list page =>
        match redeemPeek page with
        | .error _ => some (.error RErr.py)
        | .ok _ =>
          match redeemPagePick pref page with
          | .error _ => some (.error RErr.py)
          | .ok picked =>
            if page.length < limit then some (.ok (out ++ picked))
            else redeemGoF api pref limit fuel (offset + limit) (out ++ picked)
      | _ => some (.error RErr.runtime)

/-- redeem.py _build_candidates including its listing step: an exception
from _gamma_markets_between propagates (the listing is requested at line
245, before any config attribute is read, and no candidate is processed);
an AttributeError from the candidate build itself (a Python attribute
error, the same class as the .py listing errors) propagates as well. -/
def buildCandidatesR (jl : String → Option JVal)
    (cfgCondTokens cfgCollateral : Option String) (bal : Int → Option Int)
    (listing : Except RErr (List Market)) : Except RErr (List RedeemCandidate) :=
  match listing with
  | .error e => .error e
  | .ok ms =>
    match buildCandidates jl cfgCondTokens cfgCollateral bal ms with
    | .error _ => .error RErr.py
    | .ok cs => .ok cs

/-! ### tool/config.py and main.py -/

/-- Errors load_config can raise while handling the window. -/
inductive CfgErr where
  | invalidWindow : CfgErr
  | parseFail : CfgErr
deriving DecidableEq

/-- config.py load_config, restricted to its window handling: locParse
models Config.parse_local_dt (datetime.fromisoformat on the local string
followed by Europe/Madrid localisation), returning the denoted UTC instant,
none on a parse exception.  The aware-datetime comparison on line 122 is a
comparison of instants; astimezone(pytz.UTC) in window_start_utc_iso /
window_end_utc_iso preserves the instant, so the produced UTC window is the
pair of instants returned here. -/
def loadConfigWindow (locParse : String → Option Int) (ws we : String) :
    Except CfgErr (Int × Int) :=
  match locParse ws, locParse we with
  | some a, some b => if b ≤ a then .error CfgErr.invalidWindow else .ok (a, b)
  | _, _ => .error CfgErr.parseFail

/-- Exceptions relevant to the main.py redeem checkpoint. -/
inductive PyErr where
  | typeErr : PyErr
  | attrErr : PyErr
deriving DecidableEq

/-- The attribute surface of config.py's Config: its dataclass fields plus
its property and methods.  getattr(cfg, name) succeeds exactly for these
names. -/
def configAttrNames : List String :=
  ["gamma_host", "clob_host", "funder_address", "signature_type", "chain_id",
   "private_key", "clob_api_key", "clob_api_secret", "clob_api_passphrase",
   "series_slug", "window_start_local", "window_end_local", "price_up",
   "size_up", "price_down", "size_down", "dry_run", "max_markets", "tz",
   "parse_local_dt", "window_start_utc_iso", "window_end_utc_iso"]

/-- redeem.py line 303: def redeem_last_hours(cfg) declares one parameter. -/
def redeemDefParamCount : Nat := 1

/-- main.py line 32: redeem_last_hours(cfg, lookback_h) passes two
arguments. -/
def mainRedeemArgCount : Nat := 2

/-- The body of redeem_last_hours modelled to its first statement,
`if not cfg.auto_redeem:` (line 313): execution cannot get past the first
read of a Config attribute that does not exist, so nothing beyond that read
is modelled; the .ok branch is unreachable because auto_redeem is not a
Config attribute. -/
def redeemBodyEntry : Except PyErr Unit :=
  if "auto_redeem" ∈ configAttrNames then .ok () else .error PyErr.attrErr

/-- Calling redeem_last_hours the way main.py does: Python raises TypeError
at the call site when the argument count differs from the parameter count,
before the body runs. -/
def redeemCallOutcome : Except PyErr Unit :=
  if mainRedeemArgCount = redeemDefParamCount then redeemBodyEntry
  else .error PyErr.typeErr

/-- The observable outcome of one main.py run: load_config either raises
(nothing further executes, in particular no network call) or yields the UTC
window; the redeem phase's exception, when auto-redeem is on, is caught at
the call site and recorded; the trading phase then lists markets. -/
inductive RunOutcome where
  | configError : CfgErr → RunOutcome
  | run : Option PyErr → Option (Except GErr (List JVal)) → RunOutcome

/-- main.py main(): load_config, then the guarded redeem attempt (its
exception caught and recorded), then the trading-side listing over the
configured window. -/
def mainRun (locParse : String → Option Int) (ws we : String)
    (autoRedeem : Bool) (api : Nat → Option JVal) (pIso : String → Option Int)
    (mm : Nat) : RunOutcome :=
  match loadConfigWindow locParse ws we with
  | .error e => .configError e
  | .ok ab =>
    let redeemErr : Option PyErr :=
      if autoRedeem then
        match redeemCallOutcome with
        | .error pe => some pe
        | .ok _ => none
      else none
    .run redeemErr (gammaList api pIso ab.1 ab.2 mm)

/-! ### tool/redeem.py: the Settlement Transaction Submitter loop -/

/-- The per-candidate loop of redeem_last_hours lines 357-392: attempt
models the whole build / fee / gas / sign / broadcast pipeline for one
candidate (ok is the broadcast transaction hash, error the caught exception
message); the loop records each outcome and always continues to the next
candidate. -/
def submitAll (attempt : RedeemCandidate → Except String String) :
    List RedeemCandidate → List (RedeemCandidate × Except String String)
  | [] => []
  | c :: cs => (c, attempt c) :: submitAll attempt cs

/-! ### Helper lemmas -/

lemma getD_of_lt (l : List String) (i : Nat) (h : i < l.length) (d : String) :
    l.getD i d = l.get ⟨i, h⟩ := by
  induction l generalizing i with
  | nil => simp at h
  | cons a t ih =>
    cases i with
    | zero => rfl
    | succ j => exact ih j (by simpa using h)

lemma collateralFromMarket_ok (m : Market) (v : String) :
    ∃ w, collateralFromMarket m (some v) = Except.ok w := by
  unfold collateralFromMarket
  cases addrOk (pyGet m "collateralAddress") with
  | some w => exact ⟨w, rfl⟩
  | none =>
    cases addrOk (pyGet m "collateral") with
    | some w => exact ⟨w, rfl⟩
    | none =>
      cases addrOk (pyGet m "collateralToken") with
      | some w => exact ⟨w, rfl⟩
      | none =>
        cases addrOk (pyGet m "collateral_token") with
        | some w => exact ⟨w, rfl⟩
        | none => exact ⟨v, rfl⟩

lemma processMarket_ok (jl : String → Option JVal) (v : String)
    (bal : Int → Option Int) (m : Market) :
    ∃ r, processMarket jl (some v) bal m = Except.ok r := by
  unfold processMarket
  by_cases hres : marketIsResolved m
  · simp only [hres, if_true]
    cases hcid : extractConditionId m with
    | none => exact ⟨none, rfl⟩
    | some cid =>
      cases hpick : pickWinningIndex jl m (parseListish jl (pyGet m "outcomes") []) with
      | none => exact ⟨none, rfl⟩
      | some winIdx =>
        by_cases hlen : winIdx < (clobTokenIds jl m).length
        · simp only [hlen, dif_pos]
          cases hbal : (pyIntOfString ((clobTokenIds jl m).get ⟨winIdx, hlen⟩)).bind bal with
          | none => exact ⟨none, rfl⟩
          | some b =>
            simp only [hbal]
            by_cases hb0 : b ≤ 0
            · simp only [hb0, if_pos]; exact ⟨none, rfl⟩
            · simp only [hb0, if_neg, not_false_iff]
              obtain ⟨w, hw⟩ := collateralFromMarket_ok m v
              simp only [hw]
              exact ⟨_, rfl⟩
        · simp only [hlen, dif_neg, not_false_iff]; exact ⟨none, rfl⟩
  · rw [if_neg hres]; exact ⟨none, rfl⟩

lemma processMarket_some_iff (jl : String → Option JVal) (v : String)
    (bal : Int → Option Int) (m : Market) :
    (∃ c, processMarket jl (some v) bal m = Except.ok (some c)) ↔
      (marketIsResolved m = true ∧ (extractConditionId m).isSome ∧
        ∃ i, pickWinningIndex jl m (parseListish jl (pyGet m "outcomes") []) = some i ∧
          i + 1 ≤ (clobTokenIds jl m).length ∧
          ∃ b, (pyIntOfString ((clobTokenIds jl m).getD i "")).bind bal = some b ∧ 0 < b) := by
  unfold processMarket
  by_cases hres : marketIsResolved m
  · simp only [hres, if_true, true_and]
    cases hcid : extractConditionId m with
    | none => simp [hcid]
    | some cid =>
      simp only [hcid, Option.isSome_some, true_and]
      cases hpick : pickWinningIndex jl m (parseListish jl (pyGet m "outcomes") []) with
      | none => simp
      | some winIdx =>
        simp only [Option.some.injEq, exists_eq_left']
        by_cases hlen : winIdx < (clobTokenIds jl m).length
        · simp only [hlen, dif_pos]
          rw [getD_of_lt (clobTokenIds jl m) winIdx hlen ""]
          cases hbal : (pyIntOfString ((clobTokenIds jl m).get ⟨winIdx, hlen⟩)).bind bal with
          | none => simp [hbal]
          | some b =>
            simp only [hbal]
            by_cases hb0 : b ≤ 0
            · simp only [hb0, if_pos]
              constructor
              · rintro ⟨c, hc⟩; simp at hc
              · rintro ⟨hlen2, b2, hb2, hpos⟩
                obtain rfl : b = b2 := by injection hb2
                omega
            · simp only [hb0, if_neg, not_false_iff]
              obtain ⟨w, hw⟩ := collateralFromMarket_ok m v
              simp only [hw]
              constructor
              · intro _; exact ⟨by omega, b, rfl, by omega⟩
              · intro _; exact ⟨_, rfl⟩
        · simp only [hlen, dif_neg, not_false_iff]
          constructor
          · rintro ⟨c, hc⟩; simp at hc
          · rintro ⟨hlen2, _⟩
            omega
  · simp [hres]

lemma processMarket_fields (jl : String → Option JVal) (cfgColl : Option String)
    (bal : Int → Option Int) (m : Market) (c : RedeemCandidate)
    (h : processMarket jl cfgColl bal m = Except.ok (some c)) :
    c.winning_index_set = 1 <<< c.winning_index ∧
      pickWinningIndex jl m (parseListish jl (pyGet m "outcomes") []) = some c.winning_index := by
  unfold processMarket at h
  by_cases hres : marketIsResolved m
  · simp only [hres, if_true] at h
    cases hcid : extractConditionId m with
    | none => rw [hcid] at h; simp at h
    | some cid =>
      rw [hcid] at h
      cases hpick : pickWinningIndex jl m (parseListish jl (pyGet m "outcomes") []) with
      | none => rw [hpick] at h; simp at h
      | some winIdx =>
        rw [hpick] at h
        by_cases hlen : winIdx < (clobTokenIds jl m).length
        · simp only [hlen, dif_pos] at h
          cases hbal : (pyIntOfString ((clobTokenIds jl m).get ⟨winIdx, hlen⟩)).bind bal with
          | none => rw [hbal] at h; simp at h
          | some b =>
            rw [hbal] at h
            by_cases hb0 : b ≤ 0
            · simp only [hb0, if_pos] at h; simp at h
            · simp only [hb0, if_neg, not_false_iff] at h
              cases hcol : collateralFromMarket m cfgColl with
              | error e => rw [hcol] at h; simp at h
              | ok w =>
                rw [hcol] at h
                simp only [Except.ok.injEq, Option.some.injEq] at h
                subst h
                exact ⟨rfl, rfl⟩
        · simp only [hlen, dif_neg, not_false_iff] at h; simp at h
  · rw [if_neg (by simpa using hres)] at h; simp at h

lemma buildLoop_no_err (jl : String → Option JVal) (v : String)
    (bal : Int → Option Int) :
    ∀ ms, buildLoop jl (some v) bal ms =
      Except.ok (ms.filterMap (emitted jl (some v) bal)) := by
  intro ms
  induction ms with
  | nil => rfl
  | cons m t ih =>
    unfold buildLoop
    obtain ⟨r, hr⟩ := processMarket_ok jl v bal m
    cases r with
    | none =>
      simp only [hr, ih]
      simp [List.filterMap_cons, emitted, hr]
    | some c =>
      simp only [hr, ih]
      simp [List.filterMap_cons, emitted, hr]

lemma submitAll_eq_map (attempt : RedeemCandidate → Except String String)
    (cands : List RedeemCandidate) :
    submitAll attempt cands = cands.map fun x => (x, attempt x) := by
  induction cands with
  | nil => rfl
  | cons c cs ih => simp [submitAll, ih]

/-! ### Concrete inputs used by counterexamples and witnesses -/

/-- A json.loads stand-in that always fails to decode; the concrete market
records below carry their lists directly, so it is never consulted. -/
def jlNone : String → Option JVal := fun _ => none

/-- A well-formed 66-character condition identifier. -/
def cond66a : String :=
  "0x0000000000000000000000000000000000000000000000000000000000000001"

/-- A resolved market record with NO outcomes field: resolution flag set,
valid conditionId, payout numerators [0, 1], two clob token ids. -/
def m1 : Market :=
  [("resolved", JVal.bool true),
   ("conditionId", JVal.str cond66a),
   ("payoutNumerators", JVal.list [JVal.int 0, JVal.int 1]),
   ("clobTokenIds", JVal.list [JVal.str "11", JVal.str "22"])]

/-- A balance oracle holding 5 units of token 22 and nothing else. -/
def bal1 : Int → Option Int := fun t => if t = 22 then some 5 else some 0

/-- The candidate the per-record body computes for m1 once the config
attribute reads succeed (collateral falling back to the configured
address). -/
def cand1 : RedeemCandidate :=
  { slug := "?", condition_id := cond66a, collateral := "0xC",
    winning_index := 1, winning_index_set := 2, token_id := "22",
    token_balance := 5 }

/-! ### Claims -/

/-- C1 (counterexample): at the one-record listing [m1] the claim fails
twice.  With the repository's actual Config — which defines neither
conditional_tokens_address nor collateral_token_address, so both attribute
reads are none — the resolver raises AttributeError at the contract
construction before processing any record, violating "never raises".  And
m1 has no outcomes field at all, yet when the attribute reads are supplied
the per-record body emits a candidate for it (the winning index comes from
the payout numerators alone), so "a record missing outcomes never yields a
candidate" is also false. -/
theorem claim_C1_cex :
    mget m1 "outcomes" = none ∧
      buildCandidates jlNone none none bal1 [m1] = Except.error () ∧
      processMarket jlNone (some "0xC") bal1 m1 = Except.ok (some cand1) := by
  exact ⟨rfl, rfl, rfl⟩

/-- C1 (amended): when the config attribute reads succeed (a config object
defining conditional_tokens_address and collateral_token_address), a
candidate is emitted for a processed market record if and only if the
record is determined resolved, a condition identifier is extracted, a
winning outcome index is determined, the token-id list is long enough for
that index, and the balance query (including the int conversion of the
token id) succeeds with a strictly positive balance; such degraded records
are skipped without an exception, and the resolver is the per-record loop
over this body (a missing outcomes field alone does not prevent a
candidate).  The repository's actual Config defines neither attribute: the
collateral fallback raises AttributeError exactly when no market collateral
key matches, and the resolver raises AttributeError for every nonempty
listing before any record is processed, emitting no candidate. -/
theorem claim_C1_amended :
    ∀ (jl : String → Option JVal) (v w : String) (cfgCollateral : Option String)
      (bal : Int → Option Int) (m m2 : Market) (ms : List Market),
      ((∃ c, processMarket jl (some v) bal m = Except.ok (some c)) ↔
        (marketIsResolved m = true ∧ (extractConditionId m).isSome ∧
          ∃ i, pickWinningIndex jl m (parseListish jl (pyGet m "outcomes") []) = some i ∧
            i + 1 ≤ (clobTokenIds jl m).length ∧
            ∃ b, (pyIntOfString ((clobTokenIds jl m).getD i "")).bind bal = some b ∧ 0 < b)) ∧
      (processMarket jl (some v) bal m ≠ Except.error ()) ∧
      (buildCandidates jl (some w) (some v) bal ms =
        Except.ok (ms.filterMap (emitted jl (some v) bal))) ∧
      (buildCandidates jl none cfgCollateral bal (m2 :: ms) = Except.error ()) ∧
      ("conditional_tokens_address" ∉ configAttrNames ∧
        "collateral_token_address" ∉ configAttrNames) ∧
      (collateralFromMarket m none = Except.error () ↔
        (addrOk (pyGet m "collateralAddress") = none ∧
          addrOk (pyGet m "collateral") = none ∧
          addrOk (pyGet m "collateralToken") = none ∧
          addrOk (pyGet m "collateral_token") = none)) := by
  intro jl v w cfgCollateral bal m m2 ms
  refine ⟨processMarket_some_iff jl v bal m, ?_, ?_, rfl, ⟨by decide, by decide⟩, ?_⟩
  · obtain ⟨r, hr⟩ := processMarket_ok jl v bal m
    rw [hr]
    simp
  · cases ms with
    | nil => rfl
    | cons a t => exact buildLoop_no_err jl v bal (a :: t)
  · unfold collateralFromMarket
    cases h1 : addrOk (pyGet m "collateralAddress") with
    | some x => simp
    | none =>
      cases h2 : addrOk (pyGet m "collateral") with
      | some x => simp
      | none =>
        cases h3 : addrOk (pyGet m "collateralToken") with
        | some x => simp
        | none =>
          cases h4 : addrOk (pyGet m "collateral_token") with
          | some x => simp
          | none => simp

/-- C1 (witness): the amended theorem applied at the concrete record m1:
the per-record body does not raise when the collateral attribute is
supplied, and with both attribute reads failing (the repository's actual
Config) the one-record build raises. -/
theorem claim_C1_wit :
    (processMarket jlNone (some "0xC") bal1 m1 ≠ Except.error ()) ∧
      buildCandidates jlNone none none bal1 [m1] = Except.error () :=
  ⟨(claim_C1_amended jlNone "0xC" "0xT" none bal1 m1 m1 []).2.1,
    (claim_C1_amended jlNone "0xC" "0xT" none bal1 m1 m1 []).2.2.2.1⟩

/-- The ISO parse stand-in for the C3 counterexample: it recognises exactly
the +00:00 rendering of the instant 1704067200 (2024-01-01T00:00:00Z). -/
def pIso3 : String → Option Int :=
  fun s => if s = "2024-01-01T00:00:00+00:00" then some 1704067200 else none

/-- C3 (counterexample): the epoch-seconds integer 1704067200 and the
ISO-8601 UTC string denoting the same instant do not normalize to equal
instants: the integer is skipped (none) because the inline normalisation
only handles strings, while the string parses. -/
theorem claim_C3_cex :
    normalizeSlot pIso3 (JVal.int 1704067200) = none ∧
      normalizeSlot pIso3 (JVal.str "2024-01-01T00:00:00Z") = some 1704067200 ∧
      normalizeSlot pIso3 (JVal.int 1704067200) ≠
        normalizeSlot pIso3 (JVal.str "2024-01-01T00:00:00Z") := by
  exact ⟨rfl, rfl, by decide⟩

/-- C3 (amended): the inline slot-time normalisation is total and never
raises: every falsy value and every non-string value — including
epoch-seconds and epoch-milliseconds integers — normalizes to null (so the
caller skips the record instead of aborting the batch), and a nonempty
string is normalized by rewriting a Z suffix to +00:00 and parsing as
ISO-8601, null on parse failure.  Numeric epoch values are not recognised,
so they never normalize equal to the ISO form of the same instant.
Processing a dict record never raises. -/
theorem claim_C3_amended :
    ∀ (pIso : String → Option Int) (n : Int) (b : Bool) (l : List JVal)
      (kvs kvs2 : Market) (s : String) (ws we : Int),
      normalizeSlot pIso (JVal.int n) = none ∧
      normalizeSlot pIso (JVal.bool b) = none ∧
      normalizeSlot pIso JVal.null = none ∧
      normalizeSlot pIso (JVal.list l) = none ∧
      normalizeSlot pIso (JVal.obj kvs) = none ∧
      normalizeSlot pIso (JVal.str s) = (if s = "" then none else pIso (replZ s)) ∧
      processRecord pIso ws we (JVal.obj kvs2) = Except.ok (acceptRec pIso ws we kvs2) := by
  intro pIso n b l kvs kvs2 s ws we
  refine ⟨?_, ?_, rfl, ?_, ?_, ?_, rfl⟩
  · unfold normalizeSlot; split <;> rfl
  · unfold normalizeSlot; split <;> rfl
  · unfold normalizeSlot; split <;> rfl
  · unfold normalizeSlot; split <;> rfl
  · by_cases h : s = ""
    · subst h; rfl
    · simp [normalizeSlot, JVal.truthy, h]

/-- C7 (theorem): the winning index is the case-insensitive (and
whitespace-stripped) match of the explicit winner field against the
outcomes list when that match exists; otherwise it is the index of the
first strictly-positive payout numerator (the code's `x and x > 0` test
coincides with x > 0); when neither yields an index the result is none, and
processMarket then skips the market.  Every emitted candidate carries
winningIndexSet = 1 <<< winningIndex = 2 ^ winningIndex, with winningIndex
the index picked by this very function. -/
theorem claim_C7 :
    ∀ (jl : String → Option JVal) (m : Market) (outcomes : List String) (i : Nat)
      (cfgColl : Option String) (bal : Int → Option Int) (m2 : Market)
      (c : RedeemCandidate),
      (pickWinningIndex jl m outcomes = some i ↔
        (winnerMatchIdx m outcomes = some i ∨
          (winnerMatchIdx m outcomes = none ∧
            (payoutNums jl m).findIdx? (fun x => decide (0 < x)) = some i))) ∧
      (pickWinningIndex jl m outcomes = none ↔
        (winnerMatchIdx m outcomes = none ∧
          (payoutNums jl m).findIdx? (fun x => decide (0 < x)) = none)) ∧
      (processMarket jl cfgColl bal m2 = Except.ok (some c) →
        c.winning_index_set = 2 ^ c.winning_index ∧
        pickWinningIndex jl m2 (parseListish jl (pyGet m2 "outcomes") []) =
          some c.winning_index) := by
  intro jl m outcomes i cfgColl bal m2 c
  have hpred : (fun x : Int => decide (x ≠ 0) && decide (0 < x)) =
      fun x : Int => decide (0 < x) := by
    funext x
    by_cases h : 0 < x
    · have : x ≠ 0 := by omega
      simp [h, this]
    · simp [h]
  refine ⟨?_, ?_, ?_⟩
  · unfold pickWinningIndex
    rw [hpred]
    cases hw : winnerMatchIdx m outcomes with
    | some j => simp
    | none => simp
  · unfold pickWinningIndex
    rw [hpred]
    cases hw : winnerMatchIdx m outcomes with
    | some j => simp
    | none => simp
  · intro h
    obtain ⟨hset, hpick⟩ := processMarket_fields jl cfgColl bal m2 c h
    refine ⟨?_, hpick⟩
    rw [hset, Nat.shiftLeft_eq, one_mul]

/-- The market record and balance oracle for the C7 witness: an explicitly
named winner resolved case-insensitively to index 1, with 12 units of the
corresponding token. -/
def m7 : Market :=
  [("slug", JVal.str "btc-updown-5m-w"),
   ("resolved", JVal.bool true),
   ("conditionId", JVal.str cond66a),
   ("winner", JVal.str "Down"),
   ("outcomes", JVal.list [JVal.str "Up", JVal.str "Down"]),
   ("clobTokenIds", JVal.list [JVal.str "7", JVal.str "8"])]

/-- Balance oracle for the C7 witness. -/
def bal7 : Int → Option Int := fun t => if t = 8 then some 12 else none

/-- The candidate the resolver emits for m7. -/
def cand7 : RedeemCandidate :=
  { slug := "btc-updown-5m-w", condition_id := cond66a, collateral := "0xC7",
    winning_index := 1, winning_index_set := 2, token_id := "8", token_balance := 12 }

/-- C7 (witness): the theorem applied to the concrete resolved market m7. -/
theorem claim_C7_wit :
    cand7.winning_index_set = 2 ^ cand7.winning_index ∧
      pickWinningIndex jlNone m7 (parseListish jlNone (pyGet m7 "outcomes") []) =
        some cand7.winning_index :=
  (claim_C7 jlNone m7 [] 0 (some "0xC7") bal7 m7 cand7).2.2 rfl

/-- C8: the Settlement Transaction Submitter processes candidates
independently: the outcome list pairs every input candidate, in order, with
the outcome of its own attempt; the result for position i depends only on
the candidate at position i, and after any candidate (in particular a
failing one) the whole remainder of the batch is still attempted — the loop
is exactly an independent map, never all-or-nothing. -/
theorem claim_C8 :
    ∀ (attempt : RedeemCandidate → Except String String)
      (cands : List RedeemCandidate) (i : Nat) (c : RedeemCandidate)
      (cs : List RedeemCandidate),
      (submitAll attempt cands).length = cands.length ∧
      (submitAll attempt cands)[i]? = (cands[i]?).map (fun x => (x, attempt x)) ∧
      submitAll attempt (c :: cs) = (c, attempt c) :: submitAll attempt cs ∧
      submitAll attempt cands = cands.map fun x => (x, attempt x) := by
  intro attempt cands i c cs
  refine ⟨?_, ?_, rfl, submitAll_eq_map attempt cands⟩
  · rw [submitAll_eq_map]; simp
  · rw [submitAll_eq_map]; simp

/-- C9: window construction compares the two converted instants: when the
converted end is at or before the converted start, load_config raises
InvalidWindow — main then aborts before anything else runs, in particular
before any listing-API page is requested (the run outcome carries no
listing result); when the converted start strictly precedes the converted
end, the produced UTC window is exactly that pair of instants with
start < end. -/
theorem claim_C9 :
    ∀ (locParse : String → Option Int) (ws we : String) (a b : Int)
      (autoRedeem : Bool) (api : Nat → Option JVal) (pIso : String → Option Int)
      (mm : Nat),
      locParse ws = some a → locParse we = some b →
      ((b ≤ a →
          loadConfigWindow locParse ws we = Except.error CfgErr.invalidWindow ∧
          mainRun locParse ws we autoRedeem api pIso mm =
            RunOutcome.configError CfgErr.invalidWindow) ∧
        (a < b →
          loadConfigWindow locParse ws we = Except.ok (a, b) ∧ a < b)) := by
  intro locParse ws we a b autoRedeem api pIso mm ha hb
  constructor
  · intro hba
    have h1 : loadConfigWindow locParse ws we = Except.error CfgErr.invalidWindow := by
      unfold loadConfigWindow; rw [ha, hb]; simp [hba]
    exact ⟨h1, by unfold mainRun; rw [h1]⟩
  · intro hab
    have hba : ¬ b ≤ a := by omega
    exact ⟨by unfold loadConfigWindow; rw [ha, hb]; simp [hba], hab⟩

/-- The local-time parse stand-in for the C9 witness: "ws" denotes instant
100 and "we" denotes instant 40. -/
def lp9 : String → Option Int :=
  fun s => if s = "ws" then some 100 else if s = "we" then some 40 else none

/-- C9 (witness): with end instant 40 at or before start instant 100 the
load fails with InvalidWindow; with the strings swapped it produces the UTC
window (40, 100). -/
theorem claim_C9_wit :
    loadConfigWindow lp9 "ws" "we" = Except.error CfgErr.invalidWindow ∧
      loadConfigWindow lp9 "we" "ws" = Except.ok (40, 100) :=
  ⟨((claim_C9 lp9 "ws" "we" 100 40 false (fun _ => none) (fun _ => none) 0
      rfl rfl).1 (by omega)).1,
    ((claim_C9 lp9 "we" "ws" 40 100 false (fun _ => none) (fun _ => none) 0
      rfl rfl).2 (by omega)).1⟩

/-- C10: main calls redeem_last_hours with two arguments while its
definition takes one, so the call raises TypeError before the body runs;
independently, the body's very first statement reads cfg.auto_redeem, and
neither auto_redeem nor redeem_lookback_hours, polygon_rpc_url or
conditional_tokens_address is an attribute of Config, so the body could not
get past its first line anyway.  The exception is caught at the call site:
for every successfully loaded config the run records the TypeError and the
trading phase still performs its listing over the configured window. -/
theorem claim_C10 :
    ∀ (locParse : String → Option Int) (ws we : String) (api : Nat → Option JVal)
      (pIso : String → Option Int) (mm : Nat) (a b : Int),
      (mainRedeemArgCount = 2 ∧ redeemDefParamCount = 1 ∧
        mainRedeemArgCount ≠ redeemDefParamCount ∧
        redeemCallOutcome = Except.error PyErr.typeErr) ∧
      ("auto_redeem" ∉ configAttrNames ∧
        "redeem_lookback_hours" ∉ configAttrNames ∧
        "polygon_rpc_url" ∉ configAttrNames ∧
        "conditional_tokens_address" ∉ configAttrNames ∧
        redeemBodyEntry = Except.error PyErr.attrErr) ∧
      (loadConfigWindow locParse ws we = Except.ok (a, b) →
        mainRun locParse ws we true api pIso mm =
          RunOutcome.run (some PyErr.typeErr) (gammaList api pIso a b mm)) := by
  intro locParse ws we api pIso mm a b
  refine ⟨⟨rfl, rfl, by decide, rfl⟩, ⟨by decide, by decide, by decide, by decide, rfl⟩, ?_⟩
  intro h
  unfold mainRun
  rw [h]
  rfl

/-- The local-time parse stand-in for the C10 witness. -/
def lp10 : String → Option Int :=
  fun s => if s = "x" then some 1 else if s = "y" then some 2 else none

/-- C10 (witness): with a successfully loaded window (1, 2) and auto-redeem
on, the run records the TypeError from the redeem call and still runs the
trading listing. -/
theorem claim_C10_wit :
    mainRun lp10 "x" "y" true (fun _ => some JVal.null) (fun _ => none) 0 =
      RunOutcome.run (some PyErr.typeErr)
        (gammaList (fun _ => some JVal.null) (fun _ => none) 1 2 0) :=
  (claim_C10 lp10 "x" "y" (fun _ => some JVal.null) (fun _ => none) 0 1 2).2.2 rfl

/-! ### Lemmas about the gamma lister loop -/

lemma getLastD_map {α β : Type} (f : α → β) (d : α) (l : List α) :
    (l.map f).getLastD (f d) = f (l.getLastD d) := by
  induction l generalizing d with
  | nil => rfl
  | cons a t ih =>
    rw [List.map_cons, List.getLastD_cons, List.getLastD_cons]
    exact ih a

lemma peekCheck_obj_cons (k0 : Market) (rest : List Market) :
    peekCheck (JVal.list (JVal.obj k0 :: rest.map JVal.obj)) = Except.ok () := by
  have hlast : (rest.map JVal.obj).getLastD (JVal.obj k0) = JVal.obj (rest.getLastD k0) :=
    getLastD_map JVal.obj k0 rest
  unfold peekCheck
  simp [JVal.truthy, hlast, extractSlotStartIso]

lemma acceptRec_some (pIso : String → Option Int) (ws we : Int) (kvs : Market)
    (v : JVal) (h : acceptRec pIso ws we kvs = some v) :
    v = JVal.obj kvs ∧
      ∃ t, normalizeSlot pIso (slotRawOf kvs) = some t ∧ ws ≤ t ∧ t < we := by
  unfold acceptRec at h
  cases ht : normalizeSlot pIso (slotRawOf kvs) with
  | none => simp only [ht] at h; exact Option.noConfusion h
  | some t =>
    simp only [ht] at h
    by_cases hin : ws ≤ t ∧ t < we
    · rw [if_pos hin] at h
      exact ⟨by injection h with h2; exact h2.symm, t, rfl, hin.1, hin.2⟩
    · rw [if_neg hin] at h; simp at h

lemma pageFilter_mem (pIso : String → Option Int) (ws we : Int) :
    ∀ (page l : List JVal), pageFilter pIso ws we page = Except.ok l →
      ∀ v ∈ l, ∃ t, slotInstant pIso v = some t ∧ ws ≤ t ∧ t < we := by
  intro page
  induction page with
  | nil =>
    intro l h v hv
    unfold pageFilter at h
    obtain rfl : ([] : List JVal) = l := by injection h
    simp at hv
  | cons m ms ih =>
    intro l h v hv
    unfold pageFilter at h
    cases m with
    | obj kvs =>
      simp only [processRecord] at h
      cases hacc : acceptRec pIso ws we kvs with
      | none =>
        simp only [hacc] at h
        exact ih l h v hv
      | some w =>
        simp only [hacc] at h
        cases hrest : pageFilter pIso ws we ms with
        | error e => simp only [hrest] at h; exact Except.noConfusion h
        | ok rest =>
          simp only [hrest] at h
          obtain rfl : w :: rest = l := by injection h
          rcases List.mem_cons.mp hv with rfl | hv2
          · obtain ⟨rfl, t, ht, h1, h2⟩ := acceptRec_some pIso ws we kvs v hacc
            exact ⟨t, ht, h1, h2⟩
          · exact ih rest hrest v hv2
    | null => simp [processRecord] at h
    | bool b => simp [processRecord] at h
    | int n => simp [processRecord] at h
    | str s => simp [processRecord] at h
    | list l2 => simp [processRecord] at h

lemma pageFilter_map_obj (pIso : String → Option Int) (ws we : Int) :
    ∀ (ms : List Market),
      pageFilter pIso ws we (ms.map JVal.obj) =
        Except.ok (ms.filterMap (acceptRec pIso ws we)) := by
  intro ms
  induction ms with
  | nil => rfl
  | cons kvs t ih =>
    rw [List.map_cons]
    unfold pageFilter
    simp only [processRecord]
    cases hacc : acceptRec pIso ws we kvs with
    | none =>
      simp only [hacc, ih]
      simp [List.filterMap_cons, hacc]
    | some v =>
      simp only [hacc, ih]
      simp [List.filterMap_cons, hacc]

lemma gammaGoF_inv (api : Nat → Option JVal) (pIso : String → Option Int)
    (ws we : Int) (mm : Nat) :
    ∀ (fuel offset : Nat) (out r : List JVal),
      gammaGoF api pIso ws we mm fuel offset out = some (Except.ok r) →
      (∀ v ∈ out, ∃ t, slotInstant pIso v = some t ∧ ws ≤ t ∧ t < we) →
      ∀ v ∈ r, ∃ t, slotInstant pIso v = some t ∧ ws ≤ t ∧ t < we := by
  intro fuel
  induction fuel with
  | zero => intro offset out r h hout; simp [gammaGoF] at h
  | succ f ih =>
    intro offset out r h hout
    unfold gammaGoF at h
    cases hapi : api offset with
    | none =>
      simp only [hapi] at h
      exact Except.noConfusion (Option.some.inj h)
    | some body =>
      simp only [hapi] at h
      cases hpk : peekCheck body with
      | error e =>
        simp only [hpk] at h
        exact Except.noConfusion (Option.some.inj h)
      | ok u =>
        simp only [hpk] at h
        cases body with
        | list l =>
          cases l with
          | nil =>
            obtain rfl : out = r := by
              have h2 : some (Except.ok out) = some (Except.ok r) := h
              injection h2 with h3; injection h3
            exact hout
          | cons m ms =>
            cases hpf : pageFilter pIso ws we (m :: ms) with
            | error e =>
              simp only [hpf] at h
              exact Except.noConfusion (Option.some.inj h)
            | ok newOut =>
              simp only [hpf] at h
              by_cases hstop : mm ≤ offset + min 100 mm
              · rw [if_pos hstop] at h
                obtain rfl : newOut = r := by injection h with h2; injection h2
                exact pageFilter_mem pIso ws we (m :: ms) newOut hpf
              · rw [if_neg hstop] at h
                exact ih (offset + min 100 mm) newOut r h
                  (pageFilter_mem pIso ws we (m :: ms) newOut hpf)
        | null =>
          obtain rfl : out = r := by
            have h2 : some (Except.ok out) = some (Except.ok r) := h
            injection h2 with h3; injection h3
          exact hout
        | bool b =>
          obtain rfl : out = r := by
            have h2 : some (Except.ok out) = some (Except.ok r) := h
            injection h2 with h3; injection h3
          exact hout
        | int n =>
          obtain rfl : out = r := by
            have h2 : some (Except.ok out) = some (Except.ok r) := h
            injection h2 with h3; injection h3
          exact hout
        | str s =>
          obtain rfl : out = r := by
            have h2 : some (Except.ok out) = some (Except.ok r) := h
            injection h2 with h3; injection h3
          exact hout
        | obj kvs =>
          obtain rfl : out = r := by
            have h2 : some (Except.ok out) = some (Except.ok r) := h
            injection h2 with h3; injection h3
          exact hout

/-! ### C2: cross-page retention -/

/-- The ISO parse stand-in for the C2 failing input. -/
def pIso2 : String → Option Int := fun s =>
  if s = "2024-01-01T00:01:00+00:00" then some 60
  else if s = "2024-01-01T02:00:00+00:00" then some 7200 else none

/-- A market inside the window [0, 300) of pIso2 instants. -/
def mA : JVal :=
  JVal.obj [("slug", JVal.str "btc-updown-5m-a1"),
            ("startTime", JVal.str "2024-01-01T00:01:00Z")]

/-- A market outside that window. -/
def mB : JVal :=
  JVal.obj [("slug", JVal.str "btc-updown-5m-a2"),
            ("startTime", JVal.str "2024-01-01T02:00:00Z")]

/-- The C2 failing listing: page at offset 0 holds mA (in window), the page
at offset 100 holds mB (out of window), later pages are empty. -/
def api2 : Nat → Option JVal := fun off =>
  if off = 0 then some (JVal.list [mA])
  else if off = 100 then some (JVal.list [mB])
  else some (JVal.list [])

/-- C2: mA is accepted while page 0 is processed (pageFilter keeps it), yet
after the page at offset 100 has been processed the lister returns the
empty sequence — the accumulator is re-initialised at every page, so a
record accepted from an earlier page is dropped from the returned
sequence.  This contradicts the specified cross-page retention. -/
theorem claim_C2_bug :
    api2 0 = some (JVal.list [mA]) ∧
      pageFilter pIso2 0 300 [mA] = Except.ok [mA] ∧
      gammaList api2 pIso2 0 300 200 = some (Except.ok []) := by
  exact ⟨rfl, rfl, rfl⟩

/-! ### C4: half-open window boundary -/

/-- The ISO parse stand-in for the C4 counterexample. -/
def pIso4 : String → Option Int := fun s =>
  if s = "1970-01-01T00:00:00+00:00" then some 0
  else if s = "1970-01-01T09:00:00+00:00" then some 32400 else none

/-- A market whose slot instant is exactly the window start 0. -/
def mS : JVal :=
  JVal.obj [("slug", JVal.str "btc-updown-5m-s"),
            ("startTime", JVal.str "1970-01-01T00:00:00Z")]

/-- A market out of the window. -/
def mB4 : JVal :=
  JVal.obj [("slug", JVal.str "btc-updown-5m-t"),
            ("startTime", JVal.str "1970-01-01T09:00:00Z")]

/-- The C4 counterexample listing. -/
def api4 : Nat → Option JVal := fun off =>
  if off = 0 then some (JVal.list [mS])
  else if off = 100 then some (JVal.list [mB4])
  else some (JVal.list [])

/-- C4 (counterexample): a market whose normalized slot instant equals the
window start s = 0 of the window [0, 300) is nevertheless missing from the
lister's output when it sits on an earlier page of a multi-page listing, so
the claimed inclusion of the s boundary in the lister's output is false as
stated. -/
theorem claim_C4_cex :
    slotInstant pIso4 mS = some 0 ∧
      api4 0 = some (JVal.list [mS]) ∧
      gammaList api4 pIso4 0 300 200 = some (Except.ok []) := by
  exact ⟨rfl, rfl, rfl⟩

/-- C4 (amended): the window filter is half-open: no record whose normalized
slot instant equals the window end e ever appears in the lister's output
(for any paging whatsoever); and a record whose normalized slot instant
equals the window start s is included in the output whenever the listing
fits in a single processed page (maxRecords at most the page size 100) —
without that restriction the inclusion can fail, because the accumulator
reset drops earlier pages. -/
theorem claim_C4_amended :
    ∀ (api : Nat → Option JVal) (pIso : String → Option Int) (ws we : Int)
      (mm : Nat) (r : List JVal) (k0 : Market) (rest : List Market) (kvs : Market),
      (gammaList api pIso ws we mm = some (Except.ok r) →
        ∀ v ∈ r, slotInstant pIso v ≠ some we) ∧
      (mm ≤ 100 → ws < we →
        api 0 = some (JVal.list ((k0 :: rest).map JVal.obj)) →
        kvs ∈ k0 :: rest →
        normalizeSlot pIso (slotRawOf kvs) = some ws →
        gammaList api pIso ws we mm =
          some (Except.ok ((k0 :: rest).filterMap (acceptRec pIso ws we))) ∧
        JVal.obj kvs ∈ (k0 :: rest).filterMap (acceptRec pIso ws we)) := by
  intro api pIso ws we mm r k0 rest kvs
  constructor
  · intro h v hv hwe
    obtain ⟨t, ht, h1, h2⟩ :=
      gammaGoF_inv api pIso ws we mm (mm + 1) 0 [] r h (by simp) v hv
    rw [ht] at hwe
    obtain rfl : t = we := by injection hwe
    omega
  · intro hmm hlt hapi hmem hslot
    have hstop : mm ≤ 0 + min 100 mm := by omega
    have hgo : gammaList api pIso ws we mm =
        some (Except.ok ((k0 :: rest).filterMap (acceptRec pIso ws we))) := by
      have hpf := pageFilter_map_obj pIso ws we (k0 :: rest)
      rw [List.map_cons] at hpf
      unfold gammaList gammaGoF
      simp only [hapi, List.map_cons, peekCheck_obj_cons, hpf]
      rw [if_pos hstop]
    refine ⟨hgo, ?_⟩
    apply List.mem_filterMap.mpr
    refine ⟨kvs, hmem, ?_⟩
    unfold acceptRec
    rw [hslot]
    simp [le_refl, hlt]

/-- The single-page listing for the C4 witness. -/
def k0w : Market := [("startTime", JVal.str "T0Z")]

/-- ISO parse stand-in for the C4 witness. -/
def pIso4w : String → Option Int := fun s => if s = "T0+00:00" then some 0 else none

/-- Single-page api for the C4 witness. -/
def api4w : Nat → Option JVal := fun _ => some (JVal.list [JVal.obj k0w])

/-- C4 (witness): with maxRecords 50 and a one-page listing whose single
record sits exactly at the window start, the record is in the output. -/
theorem claim_C4_wit :
    gammaList api4w pIso4w 0 300 50 =
      some (Except.ok ([k0w].filterMap (acceptRec pIso4w 0 300))) ∧
      JVal.obj k0w ∈ [k0w].filterMap (acceptRec pIso4w 0 300) :=
  (claim_C4_amended api4w pIso4w 0 300 50 [] k0w [] k0w).2
    (by omega) (by omega) rfl (by simp) rfl

/-! ### C5: pagination termination and the record cap -/

lemma gammaGoF_total (api : Nat → Option JVal) (pIso : String → Option Int)
    (ws we : Int) (mm : Nat) :
    ∀ (fuel offset : Nat) (out : List JVal), mm - offset + 1 ≤ fuel →
      gammaGoF api pIso ws we mm fuel offset out ≠ none := by
  intro fuel
  induction fuel with
  | zero => intro offset out hle; omega
  | succ f ih =>
    intro offset out hle h
    unfold gammaGoF at h
    cases hapi : api offset with
    | none => simp only [hapi] at h; exact Option.noConfusion h
    | some body =>
      simp only [hapi] at h
      cases hpk : peekCheck body with
      | error e => simp only [hpk] at h; exact Option.noConfusion h
      | ok u =>
        simp only [hpk] at h
        cases body with
        | list l =>
          cases l with
          | nil => exact Option.noConfusion h
          | cons m ms =>
            cases hpf : pageFilter pIso ws we (m :: ms) with
            | error e => simp only [hpf] at h; exact Option.noConfusion h
            | ok newOut =>
              simp only [hpf] at h
              by_cases hstop : mm ≤ offset + min 100 mm
              · rw [if_pos hstop] at h; exact Option.noConfusion h
              · rw [if_neg hstop] at h
                exact ih (offset + min 100 mm) newOut (by omega) h
        | null => exact Option.noConfusion h
        | bool b => exact Option.noConfusion h
        | int n => exact Option.noConfusion h
        | str s => exact Option.noConfusion h
        | obj kvs => exact Option.noConfusion h

lemma pageFilter_length (pIso : String → Option Int) (ws we : Int) :
    ∀ (page l : List JVal), pageFilter pIso ws we page = Except.ok l →
      l.length ≤ page.length := by
  intro page
  induction page with
  | nil =>
    intro l h
    obtain rfl : ([] : List JVal) = l := by injection h
    simp
  | cons m ms ih =>
    intro l h
    unfold pageFilter at h
    cases m with
    | obj kvs =>
      simp only [processRecord] at h
      cases hacc : acceptRec pIso ws we kvs with
      | none =>
        simp only [hacc] at h
        exact Nat.le_succ_of_le (ih l h)
      | some w =>
        simp only [hacc] at h
        cases hrest : pageFilter pIso ws we ms with
        | error e => simp only [hrest] at h; exact Except.noConfusion h
        | ok rest =>
          simp only [hrest] at h
          obtain rfl : w :: rest = l := by injection h
          simpa using ih rest hrest
    | null => simp [processRecord] at h
    | bool b => simp [processRecord] at h
    | int n => simp [processRecord] at h
    | str s => simp [processRecord] at h
    | list l2 => simp [processRecord] at h

lemma gammaGoF_cap (api : Nat → Option JVal) (pIso : String → Option Int)
    (ws we : Int) (mm : Nat)
    (hb : ∀ off l, api off = some (JVal.list l) → l.length ≤ min 100 mm) :
    ∀ (fuel offset : Nat) (out r : List JVal), out.length ≤ min 100 mm →
      gammaGoF api pIso ws we mm fuel offset out = some (Except.ok r) →
      r.length ≤ min 100 mm := by
  intro fuel
  induction fuel with
  | zero => intro offset out r hlen h; simp [gammaGoF] at h
  | succ f ih =>
    intro offset out r hlen h
    unfold gammaGoF at h
    cases hapi : api offset with
    | none =>
      simp only [hapi] at h
      exact Except.noConfusion (Option.some.inj h)
    | some body =>
      simp only [hapi] at h
      cases hpk : peekCheck body with
      | error e =>
        simp only [hpk] at h
        exact Except.noConfusion (Option.some.inj h)
      | ok u =>
        simp only [hpk] at h
        cases body with
        | list l =>
          cases l with
          | nil =>
            obtain rfl : out = r := by
              have h2 : some (Except.ok out) = some (Except.ok r) := h
              injection h2 with h3; injection h3
            exact hlen
          | cons m ms =>
            cases hpf : pageFilter pIso ws we (m :: ms) with
            | error e =>
              simp only [hpf] at h
              exact Except.noConfusion (Option.some.inj h)
            | ok newOut =>
              simp only [hpf] at h
              have hnew : newOut.length ≤ min 100 mm :=
                le_trans (pageFilter_length pIso ws we (m :: ms) newOut hpf)
                  (hb offset (m :: ms) hapi)
              by_cases hstop : mm ≤ offset + min 100 mm
              · rw [if_pos hstop] at h
                obtain rfl : newOut = r := by injection h with h2; injection h2
                exact hnew
              · rw [if_neg hstop] at h
                exact ih (offset + min 100 mm) newOut r hnew h
        | null =>
          obtain rfl : out = r := by
            have h2 : some (Except.ok out) = some (Except.ok r) := h
            injection h2 with h3; injection h3
          exact hlen
        | bool b =>
          obtain rfl : out = r := by
            have h2 : some (Except.ok out) = some (Except.ok r) := h
            injection h2 with h3; injection h3
          exact hlen
        | int n =>
          obtain rfl : out = r := by
            have h2 : some (Except.ok out) = some (Except.ok r) := h
            injection h2 with h3; injection h3
          exact hlen
        | str s =>
          obtain rfl : out = r := by
            have h2 : some (Except.ok out) = some (Except.ok r) := h
            injection h2 with h3; injection h3
          exact hlen
        | obj kvs =>
          obtain rfl : out = r := by
            have h2 : some (Except.ok out) = some (Except.ok r) := h
            injection h2 with h3; injection h3
          exact hlen

/-- A page request at offset off that ends the redemption-side pagination:
an HTTP-level failure, a non-list body (RuntimeError), or a page shorter
than the page size. -/
def stopTrigger (api : Nat → Option JVal) (limit off : Nat) : Prop :=
  api off = none ∨ (∃ b, api off = some b ∧ ∀ l, b ≠ JVal.list l) ∨
    (∃ l, api off = some (JVal.list l) ∧ l.length < limit)

lemma redeemGoF_term (api : Nat → Option JVal) (pref : String) (limit : Nat) :
    ∀ (k offset : Nat) (out : List Market),
      stopTrigger api limit (offset + k * limit) →
      redeemGoF api pref limit (k + 1) offset out ≠ none := by
  intro k
  induction k with
  | zero =>
    intro offset out hst h
    rw [Nat.zero_mul, Nat.add_zero] at hst
    unfold redeemGoF at h
    cases hapi : api offset with
    | none => simp only [hapi] at h; exact Option.noConfusion h
    | some body =>
      simp only [hapi] at h
      cases body with
      | list page =>
        cases hpk : redeemPeek page with
        | error e => simp only [hpk] at h; exact Option.noConfusion h
        | ok u =>
          simp only [hpk] at h
          cases hpick : redeemPagePick pref page with
          | error e => simp only [hpick] at h; exact Option.noConfusion h
          | ok picked =>
            simp only [hpick] at h
            by_cases hshort : page.length < limit
            · rw [if_pos hshort] at h; exact Option.noConfusion h
            · rw [if_neg hshort] at h
              rcases hst with h1 | ⟨b, hb1, hb2⟩ | ⟨l, hl1, hl2⟩
              · rw [h1] at hapi; exact Option.noConfusion hapi
              · rw [hapi] at hb1
                obtain rfl : JVal.list page = b := by injection hb1
                exact hb2 page rfl
              · rw [hapi] at hl1
                have h3 : JVal.list page = JVal.list l := by injection hl1
                obtain rfl : page = l := by injection h3
                omega
      | null => exact Option.noConfusion h
      | bool x => exact Option.noConfusion h
      | int x => exact Option.noConfusion h
      | str x => exact Option.noConfusion h
      | obj x => exact Option.noConfusion h
  | succ kk ih =>
    intro offset out hst h
    unfold redeemGoF at h
    cases hapi : api offset with
    | none => simp only [hapi] at h; exact Option.noConfusion h
    | some body =>
      simp only [hapi] at h
      cases body with
      | list page =>
        cases hpk : redeemPeek page with
        | error e => simp only [hpk] at h; exact Option.noConfusion h
        | ok u =>
          simp only [hpk] at h
          cases hpick : redeemPagePick pref page with
          | error e => simp only [hpick] at h; exact Option.noConfusion h
          | ok picked =>
            simp only [hpick] at h
            by_cases hshort : page.length < limit
            · rw [if_pos hshort] at h; exact Option.noConfusion h
            · rw [if_neg hshort] at h
              refine ih (offset + limit) (out ++ picked) ?_ h
              have heq : offset + limit + kk * limit = offset + (kk + 1) * limit := by ring
              rw [heq]
              exact hst
      | null => exact Option.noConfusion h
      | bool x => exact Option.noConfusion h
      | int x => exact Option.noConfusion h
      | str x => exact Option.noConfusion h
      | obj x => exact Option.noConfusion h

/-- The C5 counterexample markets. -/
def m5a : Market := [("slug", JVal.str "btc-updown-5m-p")]

/-- Second C5 counterexample market. -/
def m5b : Market := [("slug", JVal.str "btc-updown-5m-q")]

/-- The C5 counterexample api: two one-record pages, then an empty page. -/
def api5 : Nat → Option JVal := fun off =>
  if off = 0 then some (JVal.list [JVal.obj m5a])
  else if off = 1 then some (JVal.list [JVal.obj m5b])
  else some (JVal.list [])

/-- C5 (counterexample): with maxRecords = 1 the redemption-side lister
paginates with page size min 1 200 = 1, accumulates across pages with no
cumulative cap, and returns 2 records — more than maxRecords — so "returns
at most maxRecords records" is false as stated. -/
theorem claim_C5_cex :
    redeemGoF api5 (slugPref "btc-up-or-down-5m") (min 1 200) 3 0 [] =
      some (Except.ok [m5a, m5b]) ∧
      [m5a, m5b].length = 2 ∧ 1 < 2 := by
  exact ⟨rfl, rfl, by omega⟩

/-- C5 (amended): the gamma lister terminates against every api within
maxRecords + 1 pages (it needs no assumption on page sizes: it stops on an
empty or falsy non-list page or once the fetched offset reaches maxRecords,
not on merely-short pages), and when no page exceeds the page size
min 100 maxRecords its output has at most maxRecords records; the
redemption-side lister stops exactly at the first page shorter than its
page size, so it terminates whenever some visited page triggers a stop
(short page, HTTP failure, or non-list body) — but it accumulates across
pages and its output is not capped by maxRecords (see the
counterexample). -/
theorem claim_C5_amended :
    ∀ (api : Nat → Option JVal) (pIso : String → Option Int) (ws we : Int)
      (mm : Nat) (out : List JVal) (fuel : Nat) (r : List JVal) (pref : String)
      (limit k : Nat),
      (gammaGoF api pIso ws we mm (mm + 1) 0 out ≠ none) ∧
      ((∀ off l, api off = some (JVal.list l) → l.length ≤ min 100 mm) →
        gammaGoF api pIso ws we mm fuel 0 [] = some (Except.ok r) →
        r.length ≤ mm) ∧
      (stopTrigger api limit (k * limit) →
        redeemGoF api pref limit (k + 1) 0 [] ≠ none) := by
  intro api pIso ws we mm out fuel r pref limit k
  refine ⟨gammaGoF_total api pIso ws we mm (mm + 1) 0 out (by omega), ?_, ?_⟩
  · intro hb h
    exact le_trans (gammaGoF_cap api pIso ws we mm hb fuel 0 [] r (by simp) h)
      (Nat.min_le_right 100 mm)
  · intro hst
    refine redeemGoF_term api pref limit k 0 [] ?_
    simpa using hst

/-- The api for the C5 witness: every page is the empty list. -/
def apiW5 : Nat → Option JVal := fun _ => some (JVal.list [])

/-- C5 (witness): the amended theorem applied at maxRecords 5, page size 1
and k = 0 over the all-empty-pages api. -/
theorem claim_C5_wit :
    (gammaGoF apiW5 (fun _ => none) 0 10 5 6 0 [] ≠ none) ∧
      ([] : List JVal).length ≤ 5 ∧
      (redeemGoF apiW5 "btc-" 1 1 0 [] ≠ none) := by
  refine ⟨(claim_C5_amended apiW5 (fun _ => none) 0 10 5 [] 6 [] "btc-" 1 0).1, ?_, ?_⟩
  · refine (claim_C5_amended apiW5 (fun _ => none) 0 10 5 [] 6 [] "btc-" 1 0).2.1 ?_ rfl
    intro off l h
    have h2 : JVal.list [] = JVal.list l := by injection h
    have h3 : ([] : List JVal) = l := by injection h2
    subst h3
    simp
  · exact (claim_C5_amended apiW5 (fun _ => none) 0 10 5 [] 6 [] "btc-" 1 0).2.2
      (Or.inr (Or.inr ⟨[], rfl, by decide⟩))

/-! ### C6: error behavior of the listers -/

/-- The C6 counterexample market (inside the window [0, 300)). -/
def mC : Market :=
  [("slug", JVal.str "btc-updown-5m-c"),
   ("startTime", JVal.str "1970-01-01T00:01:00Z")]

/-- ISO parse stand-in for the C6 counterexample. -/
def pIso6 : String → Option Int :=
  fun s => if s = "1970-01-01T00:01:00+00:00" then some 60 else none

/-- The C6 counterexample api: a good first page, then a null body. -/
def api6 : Nat → Option JVal := fun off =>
  if off = 0 then some (JVal.list [JVal.obj mC]) else some JVal.null

/-- C6 (counterexample): the trading-side lister meets a non-list (null)
body at offset 100 and does NOT fail the call: it returns the records of
the previously processed page as a successful partial result, contradicting
"a response body that is not a list makes the whole list call fail ... (no
partial result is returned)". -/
theorem claim_C6_cex :
    api6 100 = some JVal.null ∧ (∀ l, JVal.null ≠ JVal.list l) ∧
      gammaList api6 pIso6 0 300 200 = some (Except.ok [JVal.obj mC]) := by
  exact ⟨rfl, fun l h => JVal.noConfusion h, rfl⟩

/-- C6 (amended): an HTTP-level error at the requested page aborts both
listers with an HTTP error; a non-list body aborts the redemption-side
lister with its RuntimeError, and a discovery pass whose listing failed
propagates the error and processes zero candidates; in the trading-side
lister, however, only a truthy non-list body raises — a falsy non-list body
merely ends pagination and the call returns the accepted records of the
last processed page (see the counterexample). -/
theorem claim_C6_amended :
    ∀ (api : Nat → Option JVal) (pIso : String → Option Int) (ws we : Int)
      (mm fuel offset : Nat) (out : List JVal) (pref : String) (limit : Nat)
      (outR : List Market) (b : JVal) (jl : String → Option JVal)
      (cfgCT cfgColl : Option String) (bal : Int → Option Int) (e : RErr),
      (api offset = none →
        gammaGoF api pIso ws we mm (fuel + 1) offset out =
          some (Except.error GErr.http) ∧
        redeemGoF api pref limit (fuel + 1) offset outR =
          some (Except.error RErr.http)) ∧
      (api offset = some b → (∀ l, b ≠ JVal.list l) →
        redeemGoF api pref limit (fuel + 1) offset outR =
          some (Except.error RErr.runtime)) ∧
      buildCandidatesR jl cfgCT cfgColl bal (Except.error e) = Except.error e := by
  intro api pIso ws we mm fuel offset out pref limit outR b jl cfgCT cfgColl bal e
  refine ⟨?_, ?_, rfl⟩
  · intro h
    constructor
    · unfold gammaGoF; simp only [h]
    · unfold redeemGoF; simp only [h]
  · intro h hnl
    unfold redeemGoF
    simp only [h]

/-- The always-failing api for the C6 witness. -/
def apiN : Nat → Option JVal := fun _ => none

/-- The non-list-body api for the C6 witness. -/
def apiO : Nat → Option JVal := fun _ => some (JVal.obj [])

/-- C6 (witness): the amended theorem applied to an api failing at the
first page and to one answering with a dict body. -/
theorem claim_C6_wit :
    (gammaGoF apiN (fun _ => none) 0 1 0 1 0 [] = some (Except.error GErr.http) ∧
      redeemGoF apiN "btc-" 1 1 0 [] = some (Except.error RErr.http)) ∧
      redeemGoF apiO "btc-" 1 1 0 [] = some (Except.error RErr.runtime) ∧
      buildCandidatesR jlNone none none (fun _ => none) (Except.error RErr.http) =
        Except.error RErr.http := by
  refine ⟨(claim_C6_amended apiN (fun _ => none) 0 1 0 0 0 [] "btc-" 1 []
      JVal.null jlNone none none (fun _ => none) RErr.http).1 rfl, ?_, ?_⟩
  · exact (claim_C6_amended apiO (fun _ => none) 0 1 0 0 0 [] "btc-" 1 []
      (JVal.obj []) jlNone none none (fun _ => none) RErr.http).2.1 rfl
      (fun l h => JVal.noConfusion h)
  · exact (claim_C6_amended apiO (fun _ => none) 0 1 0 0 0 [] "btc-" 1 []
      (JVal.obj []) jlNone none none (fun _ => none) RErr.http).2.2

end Polybot
